import Mathlib

/-!
Verification of the request-execution pipeline of a Go HTTP client library
(package `httpclient`): retry with exponential backoff and jitter
(`retry.go`), response-middleware body buffering, URL joining and error
classification (`request.go` / `errors.go`), and transport construction
defaults (`client.go`).

Machine integers (`int`, `int64`, `time.Duration`) are modelled as `Int`,
with 64-bit two's-complement wraparound applied explicitly (`wrap64`)
exactly where the Go code can overflow.  Byte strings are modelled as
`List Char`.  Fallible results `(T, error)` are modelled as pairs of
options, matching Go's convention of `nil`-able results.
-/

namespace HttpClient

/-- Model of an HTTP response body stream: the underlying bytes, the read
position, and whether the stream has been closed.  A fresh
`bytes.NewReader` view corresponds to `pos = 0, closed = false`. -/
structure Body where
  content : List Char
  pos : Nat
  closed : Bool
deriving DecidableEq, Repr

/-- Model of `*http.Response`: status code plus body stream (the only
fields the verified code inspects). -/
structure HTTPResponse where
  statusCode : Int
  body : Body
deriving DecidableEq, Repr

/-- Model of Go `error` values produced by the pipeline.
`transport` stands for an arbitrary error from the underlying `Doer`;
`canceled` is `ctx.Err()`; `wrapped n e` is
`fmt.Errorf("request failed after %d attempts: %w", n, e)`;
`respMW e` is `fmt.Errorf("response middleware error: %w", e)`;
`readFault` is a body read failure. -/
inductive GoErr where
  | transport (code : Nat)
  | canceled
  | wrapped (attempts : Int) (inner : GoErr)
  | respMW (inner : GoErr)
  | readFault
deriving DecidableEq, Repr

/-- `io.ReadAll` on a body stream: fails if the stream is closed,
otherwise yields all remaining bytes and leaves the position at the end. -/
def readAll (b : Body) : Option (List Char) × Body :=
  if b.closed then (none, b)
  else (some (b.content.drop b.pos), { b with pos := b.content.length })

/-- `resp.Body.Close()`: marks the body stream closed. -/
def closeBody (r : HTTPResponse) : HTTPResponse :=
  { r with body := { r.body with closed := true } }

/-- `RetryConfig` from `retry.go`: max attempts, base wait, cap, and the
optional custom retry predicate (durations in nanoseconds). -/
structure RetryConfig where
  maxAttempts : Int
  waitTime : Int
  maxWaitTime : Int
  shouldRetryFn : Option (Option HTTPResponse → Option GoErr → Bool)

/-- `DefaultRetryWaitTime = 200 * time.Millisecond` in nanoseconds. -/
def DefaultRetryWaitTime : Int := 200 * 1000000

/-- `DefaultRetryMaxWaitTime = 10 * time.Second` in nanoseconds. -/
def DefaultRetryMaxWaitTime : Int := 10 * 1000000000

/-- `DefaultRetryAttempts = 3`. -/
def DefaultRetryAttempts : Int := 3

/-- `applyRetryDefaults` from `retry.go`: each field equal to zero is
replaced by its default; nonzero (including negative) values are kept. -/
def applyRetryDefaults (c : RetryConfig) : RetryConfig :=
  let c1 := if c.maxAttempts = 0 then { c with maxAttempts := DefaultRetryAttempts } else c
  let c2 := if c1.waitTime = 0 then { c1 with waitTime := DefaultRetryWaitTime } else c1
  if c2.maxWaitTime = 0 then { c2 with maxWaitTime := DefaultRetryMaxWaitTime } else c2

/-- `defaultShouldRetry` from `retry.go`: retry on any error, on a nil
response, on status ≥ 500, and on status 429; otherwise do not retry. -/
def defaultShouldRetry (resp : Option HTTPResponse) (err : Option GoErr) : Bool :=
  match err with
  | some _ => true
  | none =>
    match resp with
    | none => true
    | some r =>
      if r.statusCode ≥ 500 then true
      else if r.statusCode = 429 then true
      else false

/-- The predicate `executeWithRetry` actually consults: the custom
`ShouldRetry` when set, else `defaultShouldRetry`. -/
def effectiveShouldRetry (c : RetryConfig) (resp : Option HTTPResponse) (err : Option GoErr) : Bool :=
  match c.shouldRetryFn with
  | some f => f resp err
  | none => defaultShouldRetry resp err

/-- Two's-complement wraparound of an `Int` into the `int64` range,
modelling Go's well-defined signed-overflow behaviour. -/
def wrap64 (x : Int) : Int :=
  (x + 2 ^ 63) % 2 ^ 64 - 2 ^ 63

/-- Go's truncating (toward-zero) integer division by 2, as used for
`backoff / 2` on `time.Duration` (Lean's `Int` division is euclidean, so
the negative branch negates a nonnegative division to truncate toward
zero; on nonnegative operands the two conventions coincide). -/
def goDiv2 (x : Int) : Int :=
  if 0 ≤ x then x / 2 else - ((- x) / 2)

/-- `calculateBackoff` from `retry.go`:
`backoff := waitTime * Duration(math.Pow(2, attempt))`, capped at
`maxWaitTime` only when strictly greater, then
`jitter := backoff/2; if jitter > 0 { jitter = rand.Int63n(jitter) };
return backoff/2 + jitter`.
The float `math.Pow(2, attempt)` is exact and its `Duration` conversion
lossless for `attempt ≤ 62`, where this model is faithful; the `int64`
multiplication wraps, modelled by `wrap64`.  `rand` is the oracle for
`rand.Int63n`, which returns a value in `[0, n)` for `n > 0`. -/
def calculateBackoff (attempt : Nat) (waitTime maxWaitTime : Int) (rand : Int → Int) : Int :=
  let backoff0 := wrap64 (waitTime * 2 ^ attempt)
  let backoff := if backoff0 > maxWaitTime then maxWaitTime else backoff0
  let jitter0 := goDiv2 backoff
  let jitter := if jitter0 > 0 then rand jitter0 else jitter0
  goDiv2 backoff + jitter

/-- `waitWithBackoff` from `retry.go`, abstracting the
`select { timer / ctx.Done() }` race: when the cancellation signal has
already fired the `ctx.Done()` branch is taken at once (the timer is still
pending for any positive backoff), yielding `ctx.Err()` after zero elapsed
time; otherwise the timer completes after the full backoff duration.
Returns `(error?, elapsed nanoseconds)`. -/
def waitWithBackoff (cancelled : Bool) (attempt : Nat) (c : RetryConfig) (rand : Int → Int) :
    Option GoErr × Int :=
  if cancelled then (some GoErr.canceled, 0)
  else (none, calculateBackoff attempt c.waitTime c.maxWaitTime rand)

/-- Observable outcome of `executeWithRetry`: returned response, returned
error, and how many times `client.Do` was invoked. -/
structure RetryOutcome where
  resp : Option HTTPResponse
  err : Option GoErr
  sends : Nat
deriving DecidableEq, Repr

/-- The `for attempt` loop of `executeWithRetry`, running from attempt
index `a` with `fuel = MaxAttempts - a` iterations left.
Per iteration: call `send`, consult the retry predicate, return the result
when not retrying; otherwise close the response body (`closeBody`, visible
on the response returned after exhaustion, since Go mutates the shared
object), and when this was not the last allowed attempt, wait —
`cancelled a` tells whether the context is cancelled when that wait begins,
in which case the loop returns `(nil, ctx.Err())`.  Falling out of the
loop returns the wrapped last error if any, else the last response. -/
def retryLoop (c : RetryConfig) (send : Nat → Option HTTPResponse × Option GoErr)
    (cancelled : Nat → Bool) : Nat → Nat → RetryOutcome
  | _, 0 => ⟨none, none, 0⟩
  | a, fuel + 1 =>
    if effectiveShouldRetry c (send a).1 (send a).2 then
      if fuel = 0 then
        match (send a).2 with
        | some e => ⟨none, some (GoErr.wrapped c.maxAttempts e), 1⟩
        | none => ⟨Option.map closeBody (send a).1, none, 1⟩
      else if cancelled a then ⟨none, some GoErr.canceled, 1⟩
      else
        let rest := retryLoop c send cancelled (a + 1) fuel
        ⟨rest.resp, rest.err, rest.sends + 1⟩
    else ⟨(send a).1, (send a).2, 1⟩

/-- `executeWithRetry` from `retry.go`: apply defaults, then run the
attempt loop.  `send i` models `client.Do(req)` on attempt `i`;
`cancelled i` models whether the caller's context is already cancelled
when the wait after attempt `i` begins. -/
def executeWithRetry (c0 : RetryConfig) (send : Nat → Option HTTPResponse × Option GoErr)
    (cancelled : Nat → Bool) : RetryOutcome :=
  let c := applyRetryDefaults c0
  retryLoop c send cancelled 0 c.maxAttempts.toNat

/-- A response middleware step (`ResponseMiddleware`): it receives the
response (and in Go may mutate it, including its body, which we model by
returning the updated response) and may fail. -/
def RespMW : Type := HTTPResponse → HTTPResponse × Option GoErr

/-- A fresh readable view over buffered bytes:
`io.NopCloser(bytes.NewReader(buf))`. -/
def freshBody (buf : List Char) : Body :=
  ⟨buf, 0, false⟩

/-- The middleware loop of `applyResponseMiddleware` (`request.go`): the
caller has already installed a fresh view over `buf`; each step is invoked,
and a fresh view over `buf` is reinstalled afterwards — also on the
failing path, before the wrapped fault propagates.  Besides the final
response and error, it returns the trace of responses exactly as passed to
each invoked step, in order. -/
def runRespMWSteps (buf : List Char) :
    List RespMW → HTTPResponse → HTTPResponse × Option GoErr × List HTTPResponse
  | [], resp => (resp, none, [])
  | mw :: rest, resp =>
    match mw resp with
    | (r1, some e) => ({ r1 with body := freshBody buf }, some (GoErr.respMW e), [resp])
    | (r1, none) =>
      let r := runRespMWSteps buf rest { r1 with body := freshBody buf }
      (r.1, r.2.1, resp :: r.2.2)

/-- `applyResponseMiddleware` (`request.go`): read the whole body once
(fault here aborts with a read fault), close the original stream, install
a fresh view over the buffered bytes, then run the middleware loop. -/
def applyResponseMiddleware (steps : List RespMW) (resp : HTTPResponse) :
    HTTPResponse × Option GoErr × List HTTPResponse :=
  match readAll resp.body with
  | (none, _) => (resp, some GoErr.readFault, [])
  | (some buf, _) => runRespMWSteps buf steps { resp with body := freshBody buf }

/-- `strings.TrimSuffix(s, "/")`: removes one trailing slash if present. -/
def trimTrailSlash (s : List Char) : List Char :=
  if s.getLast? = some '/' then s.dropLast else s

/-- `strings.TrimPrefix(p, "/")`: removes one leading slash if present. -/
def trimLeadSlash (s : List Char) : List Char :=
  if s.head? = some '/' then s.tail else s

/-- `joinURL` (`request.go`): empty path returns the base unchanged;
otherwise one trailing slash is stripped from the base, one leading slash
from the path, and the two are joined with a single slash. -/
def joinURL (base p : List Char) : List Char :=
  if p = [] then base
  else trimTrailSlash base ++ '/' :: trimLeadSlash p

/-- Decides whether a joined address has a clean single separating slash:
some position holds a `/` whose left part does not end with a slash and
whose right part does not start with one.  This is the formal reading of
the spec's "exactly one separating slash at the join point". -/
def cleanJoinPoint (r : List Char) : Bool :=
  (List.range r.length).any fun i =>
    r.getD i ' ' = '/' && ((r.take i).getLast? ≠ some '/') && ((r.drop (i + 1)).head? ≠ some '/')

/-- `ErrorResponse` (`errors.go`): the optional JSON fields of a server
error body. -/
structure ErrorResponse where
  error : List Char
  message : List Char
  detail : List Char
  code : List Char
deriving DecidableEq, Repr

/-- `APIError` (`errors.go`): status code, message, raw body bytes. -/
structure APIError where
  statusCode : Int
  message : List Char
  body : List Char
deriving DecidableEq, Repr

/-- `firstNonEmpty` (`errors.go`): first non-empty string of the list,
empty if none. -/
def firstNonEmpty : List (List Char) → List Char
  | [] => []
  | s :: rest => if s ≠ [] then s else firstNonEmpty rest

/-- Stand-in for the formatted message
`fmt.Sprintf("failed to read error response: %v", err)` on the
body-read-failure path of `handleErrorResponse`. -/
def readFailMessage : List Char :=
  ['r', 'e', 'a', 'd', ' ', 'f', 'a', 'i', 'l', 'u', 'r', 'e']

/-- `handleErrorResponse` (`errors.go`): read the body (read fault ⇒
`APIError` with synthesized message and no body bytes); try to decode it
as an `ErrorResponse` via the JSON codec `jsonDecode` (oracle for
`json.Unmarshal`); on success with a non-empty first of
message/detail/error use that as the message, otherwise fall through to
the raw body text.  Status code and raw body are always carried. -/
def handleErrorResponse (jsonDecode : List Char → Option ErrorResponse)
    (resp : HTTPResponse) : APIError :=
  match readAll resp.body with
  | (none, _) => ⟨resp.statusCode, readFailMessage, []⟩
  | (some body, _) =>
    match jsonDecode body with
    | some errResp =>
      let msg := firstNonEmpty [errResp.message, errResp.detail, errResp.error]
      if msg ≠ [] then ⟨resp.statusCode, msg, body⟩
      else ⟨resp.statusCode, body, body⟩
    | none => ⟨resp.statusCode, body, body⟩

/-- `Config` (`client.go`): the connection-pool-relevant fields (duration
in nanoseconds). -/
structure Config where
  maxIdleConns : Int
  maxIdleConnsPerHost : Int
  idleConnTimeout : Int
deriving DecidableEq, Repr

/-- The pool-relevant fields of the `http.Transport` built by `NewClient`. -/
structure Transport where
  maxIdleConns : Int
  maxIdleConnsPerHost : Int
  idleConnTimeout : Int
deriving DecidableEq, Repr

/-- The transport construction in `NewClient` (`client.go`): a nil config
is replaced by a fresh zero-pool config; the three pool fields are copied
from the config, then `MaxIdleConnsPerHost` is defaulted to 100 and
`IdleConnTimeout` to 90 s when zero.  `MaxIdleConns` has no default
applied. -/
def newClientTransport (config : Option Config) : Transport :=
  let c := config.getD ⟨0, 0, 0⟩
  let t : Transport := ⟨c.maxIdleConns, c.maxIdleConnsPerHost, c.idleConnTimeout⟩
  let t1 := if t.maxIdleConnsPerHost = 0 then { t with maxIdleConnsPerHost := 100 } else t
  if t1.idleConnTimeout = 0 then { t1 with idleConnTimeout := 90 * 1000000000 } else t1

theorem applyRetryDefaults_maxAttempts (c : RetryConfig) :
    (applyRetryDefaults c).maxAttempts =
      if c.maxAttempts = 0 then DefaultRetryAttempts else c.maxAttempts := by
  simp only [applyRetryDefaults]
  split_ifs <;> rfl

/-- Claim C3: the default retry predicate returns true iff a transport
fault occurred, or no response was produced, or the status is ≥ 500, or
the status is 429; in particular it is false whenever a response exists
with any other status (such as 200 or 404) and no fault occurred. -/
theorem defaultShouldRetry_spec :
    ∀ (resp : Option HTTPResponse) (err : Option GoErr),
      defaultShouldRetry resp err = true ↔
        err ≠ none ∨ resp = none ∨
          ∃ r, resp = some r ∧ (500 ≤ r.statusCode ∨ r.statusCode = 429) := by
  intro resp err
  cases err with
  | some e => simp [defaultShouldRetry]
  | none =>
    cases resp with
    | none => simp [defaultShouldRetry]
    | some r =>
      by_cases h1 : 500 ≤ r.statusCode
      · simp [defaultShouldRetry, ge_iff_le, h1]
      · by_cases h2 : r.statusCode = 429
        · simp [defaultShouldRetry, ge_iff_le, h1, h2]
        · simp [defaultShouldRetry, ge_iff_le, h1, h2]

/-- Claim C8 counterexample: with the total-idle-connections setting
left at zero (and also with a nil config), the constructed transport
keeps it at 0 instead of defaulting it to 100; the code only defaults the
per-destination limit and the idle timeout. -/
theorem maxIdleConns_no_default :
    (newClientTransport (some ⟨0, 0, 0⟩)).maxIdleConns = 0 ∧
    (newClientTransport (some ⟨0, 0, 0⟩)).maxIdleConns ≠ 100 ∧
    (newClientTransport none).maxIdleConns = 0 ∧
    (newClientTransport (some ⟨0, 0, 0⟩)).maxIdleConnsPerHost = 100 ∧
    (newClientTransport (some ⟨0, 0, 0⟩)).idleConnTimeout = 90 * 1000000000 := by
  decide

/-- Claim C8 (amended): at client construction the per-destination
idle-connection limit defaults to 100 and the idle timeout to 90 seconds
whenever the corresponding field is zero, keeping configured values
otherwise; the total idle-connection limit is passed through unchanged
and receives no default. -/
theorem newClientTransport_defaults (c : Config) :
    (newClientTransport (some c)).maxIdleConns = c.maxIdleConns ∧
    (newClientTransport (some c)).maxIdleConnsPerHost =
      (if c.maxIdleConnsPerHost = 0 then 100 else c.maxIdleConnsPerHost) ∧
    (newClientTransport (some c)).idleConnTimeout =
      (if c.idleConnTimeout = 0 then 90 * 1000000000 else c.idleConnTimeout) := by
  simp only [newClientTransport, Option.getD_some]
  split_ifs <;> simp_all

/-- Claim C10: a negative configured MaxAttempts survives
`applyRetryDefaults` unchanged (only an exact zero is replaced by 3), and
`executeWithRetry` then performs zero send attempts and returns neither a
response nor an error. -/
theorem negative_maxAttempts (c0 : RetryConfig)
    (send : Nat → Option HTTPResponse × Option GoErr) (cancelled : Nat → Bool)
    (hneg : c0.maxAttempts < 0) :
    (applyRetryDefaults c0).maxAttempts = c0.maxAttempts ∧
    executeWithRetry c0 send cancelled = ⟨none, none, 0⟩ := by
  have hne : c0.maxAttempts ≠ 0 := by omega
  have hmax : (applyRetryDefaults c0).maxAttempts = c0.maxAttempts := by
    rw [applyRetryDefaults_maxAttempts, if_neg hne]
  refine ⟨hmax, ?_⟩
  have htoNat : (applyRetryDefaults c0).maxAttempts.toNat = 0 := by
    rw [hmax]; omega
  simp only [executeWithRetry, htoNat, retryLoop]

/-- Concrete check of `negative_maxAttempts`: MaxAttempts = -1 is kept,
and the retry engine performs no send and returns the empty outcome. -/
theorem negative_maxAttempts_witness :
    (applyRetryDefaults ⟨-1, 0, 0, none⟩).maxAttempts = -1 ∧
    executeWithRetry ⟨-1, 0, 0, none⟩
      (fun _ => (some ⟨503, ⟨[], 0, false⟩⟩, none)) (fun _ => false) = ⟨none, none, 0⟩ :=
  negative_maxAttempts ⟨-1, 0, 0, none⟩
    (fun _ => (some ⟨503, ⟨[], 0, false⟩⟩, none)) (fun _ => false) (by decide)

theorem retryLoop_all_retryable (c : RetryConfig)
    (send : Nat → Option HTTPResponse × Option GoErr)
    (hret : ∀ i, effectiveShouldRetry c (send i).1 (send i).2 = true) :
    ∀ fuel a, 0 < fuel →
      retryLoop c send (fun _ => false) a fuel =
        (match (send (a + fuel - 1)).2 with
         | some e => ⟨none, some (GoErr.wrapped c.maxAttempts e), fuel⟩
         | none => ⟨Option.map closeBody (send (a + fuel - 1)).1, none, fuel⟩) := by
  intro fuel
  induction fuel with
  | zero => intro a h; omega
  | succ f ih =>
    intro a _
    by_cases hf : f = 0
    · subst hf
      simp only [retryLoop, hret a, if_true, Nat.add_sub_cancel]
    · have h1 : 0 < f := Nat.pos_of_ne_zero hf
      have harith : a + 1 + f - 1 = a + (f + 1) - 1 := by omega
      simp only [retryLoop, hret a, if_true, hf, if_false, ih (a + 1) h1, harith]
      cases hsd : (send (a + (f + 1) - 1)).2 <;> simp [hsd]

/-- Claim C1: when every attempt is judged retryable (and the context is
never cancelled during the waits), `executeWithRetry` performs exactly
MaxAttempts sends; if the last attempt yielded an error, it returns no
response and that error wrapped with the attempt count; if the last
attempt yielded no error, it returns the last attempt's response (whose
body the loop closed) with no synthetic error. -/
theorem executeWithRetry_exhaustion (c0 : RetryConfig)
    (send : Nat → Option HTTPResponse × Option GoErr)
    (hpos : 0 ≤ c0.maxAttempts)
    (hret : ∀ i, effectiveShouldRetry (applyRetryDefaults c0) (send i).1 (send i).2 = true) :
    (executeWithRetry c0 send (fun _ => false)).sends =
      (applyRetryDefaults c0).maxAttempts.toNat ∧
    (∀ e, (send ((applyRetryDefaults c0).maxAttempts.toNat - 1)).2 = some e →
      (executeWithRetry c0 send (fun _ => false)).resp = none ∧
      (executeWithRetry c0 send (fun _ => false)).err =
        some (GoErr.wrapped (applyRetryDefaults c0).maxAttempts e)) ∧
    ((send ((applyRetryDefaults c0).maxAttempts.toNat - 1)).2 = none →
      (executeWithRetry c0 send (fun _ => false)).resp =
        Option.map closeBody (send ((applyRetryDefaults c0).maxAttempts.toNat - 1)).1 ∧
      (executeWithRetry c0 send (fun _ => false)).err = none) := by
  have hM : 0 < (applyRetryDefaults c0).maxAttempts.toNat := by
    rw [applyRetryDefaults_maxAttempts]
    split_ifs with h0
    · decide
    · omega
  have hrun := retryLoop_all_retryable (applyRetryDefaults c0) send hret
    (applyRetryDefaults c0).maxAttempts.toNat 0 hM
  rw [Nat.zero_add] at hrun
  unfold executeWithRetry
  rw [hrun]
  cases hlast : (send ((applyRetryDefaults c0).maxAttempts.toNat - 1)).2 with
  | none => simp
  | some e => simp

/-- Concrete check of `executeWithRetry_exhaustion`: a server that always
returns 503 against the default config (3 attempts) yields exactly 3
sends and the 503 envelope with no error. -/
theorem executeWithRetry_exhaustion_witness :
    (executeWithRetry ⟨0, 0, 0, none⟩
        (fun _ => (some ⟨503, ⟨[], 0, false⟩⟩, none)) (fun _ => false)).sends = 3 ∧
    (executeWithRetry ⟨0, 0, 0, none⟩
        (fun _ => (some ⟨503, ⟨[], 0, false⟩⟩, none)) (fun _ => false)).resp =
      some (closeBody ⟨503, ⟨[], 0, false⟩⟩) ∧
    (executeWithRetry ⟨0, 0, 0, none⟩
        (fun _ => (some ⟨503, ⟨[], 0, false⟩⟩, none)) (fun _ => false)).err = none := by
  have h := executeWithRetry_exhaustion ⟨0, 0, 0, none⟩
    (fun _ => (some ⟨503, ⟨[], 0, false⟩⟩, none)) (by decide) (fun i => rfl)
  exact ⟨h.1, (h.2.2 rfl).1, (h.2.2 rfl).2⟩

/-- Claim C9: when retries exhaust and the final attempt produced a
response judged retryable, the envelope `executeWithRetry` returns is that
response with its body already closed by the retry loop, so it is no
longer readable (a subsequent `readAll` fails). -/
theorem executeWithRetry_last_body_closed (c0 : RetryConfig)
    (send : Nat → Option HTTPResponse × Option GoErr) (r : HTTPResponse)
    (hpos : 0 ≤ c0.maxAttempts)
    (hret : ∀ i, effectiveShouldRetry (applyRetryDefaults c0) (send i).1 (send i).2 = true)
    (hlast : send ((applyRetryDefaults c0).maxAttempts.toNat - 1) = (some r, none)) :
    (executeWithRetry c0 send (fun _ => false)).resp = some (closeBody r) ∧
    (closeBody r).body.closed = true ∧
    (readAll (closeBody r).body).1 = none := by
  have hM : 0 < (applyRetryDefaults c0).maxAttempts.toNat := by
    rw [applyRetryDefaults_maxAttempts]
    split_ifs with h0
    · decide
    · omega
  have hrun := retryLoop_all_retryable (applyRetryDefaults c0) send hret
    (applyRetryDefaults c0).maxAttempts.toNat 0 hM
  rw [Nat.zero_add] at hrun
  unfold executeWithRetry
  rw [hrun, hlast]
  exact ⟨rfl, rfl, rfl⟩

/-- Concrete check of `executeWithRetry_last_body_closed` at the default
config and a constant-503 server. -/
theorem executeWithRetry_last_body_closed_witness :
    (executeWithRetry ⟨0, 0, 0, none⟩
        (fun _ => (some ⟨503, ⟨['a'], 0, false⟩⟩, none)) (fun _ => false)).resp =
      some (closeBody ⟨503, ⟨['a'], 0, false⟩⟩) ∧
    (closeBody ⟨503, ⟨['a'], 0, false⟩⟩).body.closed = true ∧
    (readAll (closeBody ⟨503, ⟨['a'], 0, false⟩⟩).body).1 = none :=
  executeWithRetry_last_body_closed ⟨0, 0, 0, none⟩
    (fun _ => (some ⟨503, ⟨['a'], 0, false⟩⟩, none)) ⟨503, ⟨['a'], 0, false⟩⟩
    (by decide) (fun i => rfl) rfl

theorem retryLoop_precancel (c : RetryConfig)
    (send : Nat → Option HTTPResponse × Option GoErr) (cancelled : Nat → Bool) :
    ∀ k a fuel, k + 1 < fuel →
      (∀ i, i ≤ k → effectiveShouldRetry c (send (a + i)).1 (send (a + i)).2 = true) →
      (∀ i, i < k → cancelled (a + i) = false) →
      cancelled (a + k) = true →
      retryLoop c send cancelled a fuel = ⟨none, some GoErr.canceled, k + 1⟩ := by
  intro k
  induction k with
  | zero =>
    intro a fuel hf hret hc hck
    match fuel, hf with
    | f + 1, _ =>
      have hf0 : f ≠ 0 := by omega
      have hr0 := hret 0 (Nat.le_refl 0)
      rw [Nat.add_zero] at hr0 hck
      simp only [retryLoop, hr0, if_true, hf0, if_false, hck]
  | succ k ih =>
    intro a fuel hf hret hc hck
    match fuel, hf with
    | f + 1, _ =>
      have hf0 : f ≠ 0 := by omega
      have hr0 := hret 0 (Nat.zero_le _)
      rw [Nat.add_zero] at hr0
      have hc0 := hc 0 (Nat.zero_lt_succ k)
      rw [Nat.add_zero] at hc0
      have hrest : retryLoop c send cancelled (a + 1) f = ⟨none, some GoErr.canceled, k + 1⟩ := by
        apply ih (a + 1) f (by omega)
        · intro i hi
          have := hret (i + 1) (Nat.succ_le_succ hi)
          rwa [Nat.add_comm i 1, ← Nat.add_assoc] at this
        · intro i hi
          have := hc (i + 1) (Nat.succ_lt_succ hi)
          rwa [Nat.add_comm i 1, ← Nat.add_assoc] at this
        · have := hck
          rwa [Nat.add_comm k 1, ← Nat.add_assoc] at this
      simp only [retryLoop, hr0, if_true, hf0, if_false, hc0, hrest]
      simp

/-- Claim C7: if attempts 0..k are judged retryable, the earlier waits
completed, and the cancellation signal has already fired when the wait
after attempt k begins (with a positive computed backoff pending), then
the wait aborts at once — zero elapsed time, strictly less than the
backoff duration — with the cancellation fault, and `executeWithRetry`
returns exactly that fault after k+1 sends, starting no further attempt. -/
theorem cancellation_during_backoff (c0 : RetryConfig)
    (send : Nat → Option HTTPResponse × Option GoErr) (cancelled : Nat → Bool)
    (rand : Int → Int) (k : Nat)
    (hk : k + 1 < (applyRetryDefaults c0).maxAttempts.toNat)
    (hret : ∀ i, i ≤ k →
      effectiveShouldRetry (applyRetryDefaults c0) (send i).1 (send i).2 = true)
    (hc : ∀ i, i < k → cancelled i = false)
    (hck : cancelled k = true)
    (hb : 0 < calculateBackoff k (applyRetryDefaults c0).waitTime
      (applyRetryDefaults c0).maxWaitTime rand) :
    waitWithBackoff true k (applyRetryDefaults c0) rand = (some GoErr.canceled, 0) ∧
    (waitWithBackoff true k (applyRetryDefaults c0) rand).2 <
      calculateBackoff k (applyRetryDefaults c0).waitTime
        (applyRetryDefaults c0).maxWaitTime rand ∧
    executeWithRetry c0 send cancelled = ⟨none, some GoErr.canceled, k + 1⟩ := by
  refine ⟨rfl, ?_, ?_⟩
  · simpa [waitWithBackoff] using hb
  · unfold executeWithRetry
    apply retryLoop_precancel (applyRetryDefaults c0) send cancelled k 0 _ hk
    · intro i hi
      rw [Nat.zero_add]
      exact hret i hi
    · intro i hi
      rw [Nat.zero_add]
      exact hc i hi
    · rw [Nat.zero_add]
      exact hck

/-- Concrete check of `cancellation_during_backoff`: default config,
constant-503 server, signal already fired at the first wait. -/
theorem cancellation_during_backoff_witness :
    waitWithBackoff true 0 (applyRetryDefaults ⟨0, 0, 0, none⟩) (fun _ => 0) =
      (some GoErr.canceled, 0) ∧
    (waitWithBackoff true 0 (applyRetryDefaults ⟨0, 0, 0, none⟩) (fun _ => 0)).2 <
      calculateBackoff 0 (applyRetryDefaults ⟨0, 0, 0, none⟩).waitTime
        (applyRetryDefaults ⟨0, 0, 0, none⟩).maxWaitTime (fun _ => 0) ∧
    executeWithRetry ⟨0, 0, 0, none⟩
      (fun _ => (some ⟨503, ⟨[], 0, false⟩⟩, none)) (fun _ => true) =
      ⟨none, some GoErr.canceled, 1⟩ :=
  cancellation_during_backoff ⟨0, 0, 0, none⟩
    (fun _ => (some ⟨503, ⟨[], 0, false⟩⟩, none)) (fun _ => true) (fun _ => 0) 0
    (by decide) (fun i _ => rfl) (fun i hi => absurd hi (by omega)) rfl (by decide)

/-- Claim C2 counterexample: at attempt index 36 with the library's own
default base wait (200 ms) and cap (10 s), the 64-bit product
`waitTime * 2^36` overflows and `calculateBackoff` returns a negative
duration — contradicting "always ≥ 0" (and the claimed interval), for any
jitter oracle, since the negative value never reaches the random draw. -/
theorem calculateBackoff_overflow_neg :
    calculateBackoff 36 200000000 10000000000 (fun _ => 0) < 0 ∧
    calculateBackoff 36 DefaultRetryWaitTime DefaultRetryMaxWaitTime (fun _ => 0) =
      -4702848726509551616 := by
  constructor <;> decide

theorem wrap64_eq_self (x : Int) (h1 : - 2 ^ 63 ≤ x) (h2 : x < 2 ^ 63) :
    wrap64 x = x := by
  unfold wrap64
  have e63 : (2 : Int) ^ 63 = 9223372036854775808 := by norm_num
  have e64 : (2 : Int) ^ 64 = 18446744073709551616 := by norm_num
  simp only [e63, e64] at h1 h2 ⊢
  omega

/-- Claim C2 (amended): provided `base · 2^i` does not overflow `int64`
(and with nonnegative base and cap), the backoff with jitter satisfies:
it is ≥ 0 and ≤ cap; writing `b = min(cap, base · 2^i)`, it is exactly 0
when `b = 0`, and lies in `[⌊b/2⌋, b)` when `b > 0` (halving is the
code's integer division).  Without the no-overflow proviso the result can
be negative (`calculateBackoff_overflow_neg`). -/
theorem calculateBackoff_bounds (attempt : Nat) (waitTime maxWaitTime : Int)
    (rand : Int → Int)
    (hw : 0 ≤ waitTime) (hcap : 0 ≤ maxWaitTime)
    (hov : waitTime * 2 ^ attempt < 2 ^ 63) (hcap63 : maxWaitTime < 2 ^ 63)
    (hrand : ∀ n : Int, 0 < n → 0 ≤ rand n ∧ rand n < n) :
    0 ≤ calculateBackoff attempt waitTime maxWaitTime rand ∧
    calculateBackoff attempt waitTime maxWaitTime rand ≤ maxWaitTime ∧
    (min maxWaitTime (waitTime * 2 ^ attempt) = 0 →
      calculateBackoff attempt waitTime maxWaitTime rand = 0) ∧
    (0 < min maxWaitTime (waitTime * 2 ^ attempt) →
      goDiv2 (min maxWaitTime (waitTime * 2 ^ attempt)) ≤
        calculateBackoff attempt waitTime maxWaitTime rand ∧
      calculateBackoff attempt waitTime maxWaitTime rand <
        min maxWaitTime (waitTime * 2 ^ attempt)) := by
  have hprod : 0 ≤ waitTime * 2 ^ attempt :=
    mul_nonneg hw (pow_nonneg (by norm_num) _)
  have hwrap : wrap64 (waitTime * 2 ^ attempt) = waitTime * 2 ^ attempt :=
    wrap64_eq_self _ (by omega) hov
  have hb0 : 0 ≤ min maxWaitTime (waitTime * 2 ^ attempt) := le_min hcap hprod
  have hbcap : min maxWaitTime (waitTime * 2 ^ attempt) ≤ maxWaitTime := min_le_left _ _
  have hmin : (if wrap64 (waitTime * 2 ^ attempt) > maxWaitTime then maxWaitTime
      else wrap64 (waitTime * 2 ^ attempt)) = min maxWaitTime (waitTime * 2 ^ attempt) := by
    rw [hwrap, min_def]
    split_ifs <;> omega
  have hdiv : goDiv2 (min maxWaitTime (waitTime * 2 ^ attempt)) =
      min maxWaitTime (waitTime * 2 ^ attempt) / 2 := by
    unfold goDiv2
    rw [if_pos hb0]
  have hkey : calculateBackoff attempt waitTime maxWaitTime rand =
      min maxWaitTime (waitTime * 2 ^ attempt) / 2 +
        (if min maxWaitTime (waitTime * 2 ^ attempt) / 2 > 0
         then rand (min maxWaitTime (waitTime * 2 ^ attempt) / 2)
         else min maxWaitTime (waitTime * 2 ^ attempt) / 2) := by
    simp only [calculateBackoff, hmin, hdiv]
  rw [hkey, hdiv]
  rcases lt_or_le 0 (min maxWaitTime (waitTime * 2 ^ attempt) / 2) with hj | hj
  · rw [if_pos hj]
    obtain ⟨hr0, hr1⟩ := hrand _ hj
    refine ⟨?_, ?_, ?_, fun hbpos => ⟨?_, ?_⟩⟩ <;> omega
  · rw [if_neg (by omega)]
    refine ⟨?_, ?_, ?_, fun hbpos => ⟨?_, ?_⟩⟩ <;> omega

/-- Concrete check of `calculateBackoff_bounds` at attempt 5 with the
default base and cap (the spec's own example: unjittered 6.4 s, wait in
[3.2 s, 6.4 s)), using the maximal admissible jitter draw. -/
theorem calculateBackoff_bounds_witness :
    0 ≤ calculateBackoff 5 200000000 10000000000 (fun n => n - 1) ∧
    calculateBackoff 5 200000000 10000000000 (fun n => n - 1) ≤ 10000000000 ∧
    (min (10000000000 : Int) (200000000 * 2 ^ 5) = 0 →
      calculateBackoff 5 200000000 10000000000 (fun n => n - 1) = 0) ∧
    (0 < min (10000000000 : Int) (200000000 * 2 ^ 5) →
      goDiv2 (min (10000000000 : Int) (200000000 * 2 ^ 5)) ≤
        calculateBackoff 5 200000000 10000000000 (fun n => n - 1) ∧
      calculateBackoff 5 200000000 10000000000 (fun n => n - 1) <
        min (10000000000 : Int) (200000000 * 2 ^ 5)) :=
  calculateBackoff_bounds 5 200000000 10000000000 (fun n => n - 1)
    (by norm_num) (by norm_num) (by norm_num) (by norm_num)
    (fun n hn => by
      show 0 ≤ n - 1 ∧ n - 1 < n
      omega)

theorem runRespMWSteps_fresh (buf : List Char) :
    ∀ (steps : List RespMW) (resp : HTTPResponse), resp.body = freshBody buf →
      (runRespMWSteps buf steps resp).1.body = freshBody buf ∧
      ∀ x ∈ (runRespMWSteps buf steps resp).2.2, x.body = freshBody buf := by
  intro steps
  induction steps with
  | nil =>
    intro resp h
    exact ⟨h, by simp [runRespMWSteps]⟩
  | cons mw rest ih =>
    intro resp h
    rcases hmw : mw resp with ⟨r1, e⟩
    cases e with
    | some err =>
      constructor
      · simp [runRespMWSteps, hmw]
      · intro x hx
        simp [runRespMWSteps, hmw] at hx
        rw [hx]
        exact h
    | none =>
      have hrest := ih { r1 with body := freshBody buf } rfl
      constructor
      · simp only [runRespMWSteps, hmw]
        exact hrest.1
      · intro x hx
        simp only [runRespMWSteps, hmw, List.mem_cons] at hx
        rcases hx with hx | hx
        · rw [hx]
          exact h
        · exact hrest.2 x hx

/-- Claim C4: starting from an envelope with an unread body, the
buffering protocol hands every middleware step, in order, a response
whose body is a fresh readable view over the fully buffered bytes (also
when an earlier step drained or replaced the body); the final envelope's
body — on the success path and on the fault path alike — is again a fresh
view that reads exactly the original bytes, so a subsequent decode sees
the original content; and a read-only middleware registered twice is
invoked on identical responses both times, observing the same content. -/
theorem applyResponseMiddleware_buffering (sc : Int) (content : List Char)
    (steps : List RespMW) (mw : RespMW) :
    (∀ x ∈ (applyResponseMiddleware steps ⟨sc, freshBody content⟩).2.2,
      x.body = freshBody content) ∧
    (applyResponseMiddleware steps ⟨sc, freshBody content⟩).1.body = freshBody content ∧
    (readAll (applyResponseMiddleware steps ⟨sc, freshBody content⟩).1.body).1 =
      some content ∧
    ((∀ r, mw r = (r, none)) →
      (applyResponseMiddleware [mw, mw] ⟨sc, freshBody content⟩).2.2 =
        [⟨sc, freshBody content⟩, ⟨sc, freshBody content⟩] ∧
      (applyResponseMiddleware [mw, mw] ⟨sc, freshBody content⟩).2.1 = none) := by
  have hstart : ∀ st : List RespMW,
      applyResponseMiddleware st ⟨sc, freshBody content⟩ =
        runRespMWSteps content st ⟨sc, freshBody content⟩ := by
    intro st
    simp [applyResponseMiddleware, readAll, freshBody]
  have hmain := runRespMWSteps_fresh content steps ⟨sc, freshBody content⟩ rfl
  refine ⟨?_, ?_, ?_, ?_⟩
  · rw [hstart]
    exact hmain.2
  · rw [hstart]
    exact hmain.1
  · rw [hstart, hmain.1]
    simp [readAll, freshBody]
  · intro hro
    rw [hstart]
    simp [runRespMWSteps, hro]

/-- Concrete check of `applyResponseMiddleware_buffering` with a
body-draining step and a read-only step run twice. -/
theorem applyResponseMiddleware_buffering_witness :
    (∀ x ∈ (applyResponseMiddleware
        [fun r => ({ r with body := { r.body with pos := r.body.content.length } }, none)]
        ⟨404, freshBody ['h', 'i']⟩).2.2,
      x.body = freshBody ['h', 'i']) ∧
    (readAll (applyResponseMiddleware
        [fun r => ({ r with body := { r.body with pos := r.body.content.length } }, none)]
        ⟨404, freshBody ['h', 'i']⟩).1.body).1 = some ['h', 'i'] ∧
    (applyResponseMiddleware [fun r => (r, none), fun r => (r, none)]
        ⟨404, freshBody ['h', 'i']⟩).2.2 =
      [⟨404, freshBody ['h', 'i']⟩, ⟨404, freshBody ['h', 'i']⟩] := by
  have h := applyResponseMiddleware_buffering 404 ['h', 'i']
    [fun r => ({ r with body := { r.body with pos := r.body.content.length } }, none)]
    (fun r => (r, none))
  exact ⟨h.1, h.2.2.1, (h.2.2.2 (fun r => rfl)).1⟩

/-- Claim C5 counterexample: with a base ending in two slashes
(`"a//"`) and the path `"b"`, the joined address is `"a//b"` — the code
strips only a single trailing slash, so the join point carries two
slashes and no position of the result is a clean single separating slash;
"exactly one separating slash regardless of leading/trailing slashes" is
therefore false in general. -/
theorem joinURL_double_slash_counterexample :
    joinURL ['a', '/', '/'] ['b'] = ['a', '/', '/', 'b'] ∧
    cleanJoinPoint (joinURL ['a', '/', '/'] ['b']) = false ∧
    cleanJoinPoint (joinURL ['a', '/'] ['/', 'b']) = true := by
  refine ⟨by decide, by decide, by decide⟩

theorem trimTrailSlash_concat (b : List Char) :
    trimTrailSlash (b ++ ['/']) = b := by
  unfold trimTrailSlash
  rw [if_pos (List.getLast?_concat b), List.dropLast_concat]

theorem trimTrailSlash_of_ne (b : List Char) (hb : b.getLast? ≠ some '/') :
    trimTrailSlash b = b := by
  unfold trimTrailSlash
  rw [if_neg hb]

theorem trimLeadSlash_of_ne (p : List Char) (hp : p.head? ≠ some '/') :
    trimLeadSlash p = p := by
  unfold trimLeadSlash
  rw [if_neg hp]

theorem cleanJoinPoint_of_join (b p : List Char)
    (hb : b.getLast? ≠ some '/') (hp : p.head? ≠ some '/') :
    cleanJoinPoint (b ++ '/' :: p) = true := by
  unfold cleanJoinPoint
  rw [List.any_eq_true]
  refine ⟨b.length, List.mem_range.mpr ?_, ?_⟩
  · simp
  · have h1 : (b ++ '/' :: p).getD b.length ' ' = '/' := by
      rw [List.getD_eq_getElem?_getD, List.getElem?_append_right (Nat.le_refl _)]
      simp
    have h2 : (b ++ '/' :: p).take b.length = b := List.take_left b ('/' :: p)
    have h3 : (b ++ '/' :: p).drop (b.length + 1) = p := by
      rw [List.append_cons]
      have hlen : (b ++ ['/']).length = b.length + 1 := by simp
      rw [← hlen, List.drop_left]
    simp [h1, h2, h3, hb, hp, List.getElem_append_right]

/-- Claim C5 (amended): whenever the base has at most one trailing slash
and the path at most one leading slash, all four presence/absence
combinations join to the same address with exactly one separating slash
at the join point; an empty path returns the base unchanged (whatever the
base). -/
theorem joinURL_single_slash (b p : List Char)
    (hb : b.getLast? ≠ some '/') (hp : p.head? ≠ some '/') (hpne : p ≠ []) :
    joinURL b p = b ++ '/' :: p ∧
    joinURL (b ++ ['/']) p = b ++ '/' :: p ∧
    joinURL b ('/' :: p) = b ++ '/' :: p ∧
    joinURL (b ++ ['/']) ('/' :: p) = b ++ '/' :: p ∧
    cleanJoinPoint (b ++ '/' :: p) = true ∧
    joinURL b [] = b ∧
    joinURL (b ++ ['/']) [] = b ++ ['/'] := by
  have htb : trimTrailSlash b = b := trimTrailSlash_of_ne b hb
  have htbs : trimTrailSlash (b ++ ['/']) = b := trimTrailSlash_concat b
  have htp : trimLeadSlash p = p := trimLeadSlash_of_ne p hp
  have htps : trimLeadSlash ('/' :: p) = p := by
    unfold trimLeadSlash
    rfl
  refine ⟨?_, ?_, ?_, ?_, cleanJoinPoint_of_join b p hb hp, ?_, ?_⟩
  · rw [joinURL, if_neg hpne, htb, htp]
  · rw [joinURL, if_neg hpne, htbs, htp]
  · rw [joinURL, if_neg (by simp), htb, htps]
  · rw [joinURL, if_neg (by simp), htbs, htps]
  · rw [joinURL, if_pos rfl]
  · rw [joinURL, if_pos rfl]

/-- Concrete check of `joinURL_single_slash` on base `"api"` and path
`"v1"`. -/
theorem joinURL_single_slash_witness :
    joinURL ['a', 'p', 'i'] ['v', '1'] = ['a', 'p', 'i', '/', 'v', '1'] ∧
    joinURL (['a', 'p', 'i'] ++ ['/']) ['v', '1'] = ['a', 'p', 'i', '/', 'v', '1'] ∧
    joinURL ['a', 'p', 'i'] ('/' :: ['v', '1']) = ['a', 'p', 'i', '/', 'v', '1'] ∧
    joinURL (['a', 'p', 'i'] ++ ['/']) ('/' :: ['v', '1']) =
      ['a', 'p', 'i', '/', 'v', '1'] ∧
    cleanJoinPoint (['a', 'p', 'i'] ++ '/' :: ['v', '1']) = true ∧
    joinURL ['a', 'p', 'i'] [] = ['a', 'p', 'i'] ∧
    joinURL (['a', 'p', 'i'] ++ ['/']) [] = ['a', 'p', 'i'] ++ ['/'] :=
  joinURL_single_slash ['a', 'p', 'i'] ['v', '1']
    (by decide) (by decide) (by decide)

/-- Claim C6: for a non-2xx response with a readable body, the classifier
returns a structured error that always carries the response's status code
and the raw body bytes; its message is the first non-empty of the decoded
JSON fields message, detail, error (in that priority order) when the body
decodes and one of them is non-empty, and the raw body text verbatim
otherwise (decode failure, or all three fields empty). -/
theorem handleErrorResponse_spec (jsonDecode : List Char → Option ErrorResponse)
    (resp : HTTPResponse) (hopen : resp.body.closed = false)
    (_sscope : resp.statusCode < 200 ∨ 300 ≤ resp.statusCode) :
    (handleErrorResponse jsonDecode resp).statusCode = resp.statusCode ∧
    (handleErrorResponse jsonDecode resp).body = resp.body.content.drop resp.body.pos ∧
    (∀ er, jsonDecode (resp.body.content.drop resp.body.pos) = some er →
      firstNonEmpty [er.message, er.detail, er.error] ≠ [] →
      (handleErrorResponse jsonDecode resp).message =
        firstNonEmpty [er.message, er.detail, er.error]) ∧
    (∀ er, jsonDecode (resp.body.content.drop resp.body.pos) = some er →
      firstNonEmpty [er.message, er.detail, er.error] = [] →
      (handleErrorResponse jsonDecode resp).message =
        resp.body.content.drop resp.body.pos) ∧
    (jsonDecode (resp.body.content.drop resp.body.pos) = none →
      (handleErrorResponse jsonDecode resp).message =
        resp.body.content.drop resp.body.pos) := by
  have hread : readAll resp.body =
      (some (resp.body.content.drop resp.body.pos),
        { resp.body with pos := resp.body.content.length }) := by
    unfold readAll
    rw [if_neg (by simp [hopen])]
  cases hdec : jsonDecode (resp.body.content.drop resp.body.pos) with
  | none =>
    have hval : handleErrorResponse jsonDecode resp =
        ⟨resp.statusCode, resp.body.content.drop resp.body.pos,
          resp.body.content.drop resp.body.pos⟩ := by
      unfold handleErrorResponse
      rw [hread]
      simp only [hdec]
    rw [hval]
    exact ⟨rfl, rfl, fun er h => by simp_all, fun er h => by simp_all, fun _ => rfl⟩
  | some er =>
    by_cases hmsg : firstNonEmpty [er.message, er.detail, er.error] = []
    · have hval : handleErrorResponse jsonDecode resp =
          ⟨resp.statusCode, resp.body.content.drop resp.body.pos,
            resp.body.content.drop resp.body.pos⟩ := by
        unfold handleErrorResponse
        rw [hread]
        simp only [hdec, hmsg, ne_eq, not_true_eq_false, if_false, ite_false]
      rw [hval]
      refine ⟨rfl, rfl, fun er' h hne => ?_, fun er' h _ => rfl, fun h => by simp_all⟩
      injection h with h'
      subst h'
      exact absurd hmsg hne
    · have hval : handleErrorResponse jsonDecode resp =
          ⟨resp.statusCode, firstNonEmpty [er.message, er.detail, er.error],
            resp.body.content.drop resp.body.pos⟩ := by
        unfold handleErrorResponse
        rw [hread]
        simp only [hdec, ne_eq, hmsg, not_false_eq_true, if_true, ite_true]
      rw [hval]
      refine ⟨rfl, rfl, fun er' h _ => ?_, fun er' h habs => ?_, fun h => by simp_all⟩
      · injection h with h'
        subst h'
        rfl
      · injection h with h'
        subst h'
        exact absurd habs hmsg

/-- Concrete check of `handleErrorResponse_spec`: a 404 whose body
decodes to error = "e", message = "m" (and empty detail) is classified
with message "m", the status, and the raw bytes. -/
theorem handleErrorResponse_spec_witness :
    (handleErrorResponse (fun _ => some ⟨['e'], ['m'], [], []⟩)
      ⟨404, ⟨['x'], 0, false⟩⟩).statusCode = 404 ∧
    (handleErrorResponse (fun _ => some ⟨['e'], ['m'], [], []⟩)
      ⟨404, ⟨['x'], 0, false⟩⟩).body = ['x'] ∧
    (handleErrorResponse (fun _ => some ⟨['e'], ['m'], [], []⟩)
      ⟨404, ⟨['x'], 0, false⟩⟩).message = ['m'] := by
  have h := handleErrorResponse_spec (fun _ => some ⟨['e'], ['m'], [], []⟩)
    ⟨404, ⟨['x'], 0, false⟩⟩ rfl (by norm_num)
  exact ⟨h.1, h.2.1, by
    have := h.2.2.1 ⟨['e'], ['m'], [], []⟩ rfl (by decide)
    simpa using this⟩

end HttpClient
